/-
Verification of the xiv-midi core: a shallow embedding in Lean 4 of the
MIDI message parser (src/midi.rs), the mapping-resolution model with
octave transposition (src/mapping.rs), the note scheduler state machine
(src/engine.rs) and the keyboard controller (src/keyboard.rs), together
with theorems settling the specification claims.
-/
import Mathlib

namespace XivMidi

/-! ## Keyboard keys (src/keyboard.rs, `enum Key`) -/

/-- Keyboard key representation, mirroring `Key` in src/keyboard.rs. -/
inductive Key where
  | A | B | C | D | E | F | G | H | I | J | K | L | M
  | N | O | P | Q | R | S | T | U | V | W | X | Y | Z
  | Num0 | Num1 | Num2 | Num3 | Num4
  | Num5 | Num6 | Num7 | Num8 | Num9
  | F1 | F2 | F3 | F4 | F5 | F6
  | F7 | F8 | F9 | F10 | F11 | F12
  | Shift | Control | Alt | Meta
  | Space | Enter | Escape | Tab | Backspace
  | Up | Down | Left | Right
deriving DecidableEq, Repr

/-! ## Mock keyboard capability with an event trace

The engine is generic over a `KeyboardController`; for verification we
instantiate it with a deterministic trace-recording capability (the
"in-memory recorder of press/release calls" the design notes describe).
`failAt` injects a failure at the given press/release call index, to model
fallible key injection; a failed call performs nothing. Sleeps performed
by the scheduler (`thread::sleep`) are recorded in the same trace but are
not capability calls; they advance the mock clock `time`. -/

/-- An observable event: a capability call (press/release) or a sleep. -/
inductive KbEvent where
  | press (k : Key)
  | release (k : Key)
  | sleep (ms : Nat)
deriving DecidableEq, Repr

/-- Trace-recording keyboard capability with fault injection. -/
structure Kb where
  /-- All events so far, in order. -/
  events : List KbEvent
  /-- Index of the press/release call that fails (none = all succeed). -/
  failAt : Option Nat
  /-- Number of press/release calls attempted so far. -/
  nCalls : Nat
  /-- Mock clock in milliseconds; advanced only by sleeps. -/
  time : Int
deriving DecidableEq, Repr

/-- The initial capability: empty trace, no fault, clock at 0. -/
def Kb.init : Kb := ⟨[], none, 0, 0⟩

/-- A capability that fails at press/release call number `i`. -/
def Kb.initFailAt (i : Nat) : Kb := ⟨[], some i, 0, 0⟩

/-- `kb.press(key)`: records the call, or fails at the scheduled index. -/
def Kb.doPress (kb : Kb) (k : Key) : Kb × Bool :=
  if kb.failAt = some kb.nCalls then (kb, false)
  else ({ kb with events := kb.events ++ [.press k], nCalls := kb.nCalls + 1 }, true)

/-- `kb.release(key)`: records the call, or fails at the scheduled index. -/
def Kb.doRelease (kb : Kb) (k : Key) : Kb × Bool :=
  if kb.failAt = some kb.nCalls then (kb, false)
  else ({ kb with events := kb.events ++ [.release k], nCalls := kb.nCalls + 1 }, true)

/-- `thread::sleep(ms)`: recorded in the trace, advances the clock. -/
def Kb.doSleep (kb : Kb) (ms : Nat) : Kb :=
  { kb with events := kb.events ++ [.sleep ms], time := kb.time + ms }

/-- The capability calls in the trace: presses and releases, sleeps dropped. -/
def capCalls (kb : Kb) : List KbEvent :=
  kb.events.filter fun e =>
    match e with
    | .sleep _ => false
    | _ => true

/-! ## Actions and the note scheduler (src/mapping.rs `Action`, src/engine.rs) -/

/-- Action to perform when a MIDI event occurs (src/mapping.rs). -/
inductive Action where
  | Press (key : Key)
  | Release (key : Key)
  | Delay (ms : Nat)
  | SetModifiers (shift ctrl alt : Bool)
deriving DecidableEq, Repr

/-- Modifier state (src/engine.rs `ModifierState`). -/
structure ModifierState where
  shift : Bool
  ctrl : Bool
  alt : Bool
deriving DecidableEq, Repr

/-- `ModifierState::default()`. -/
def ModifierState.default : ModifierState := ⟨false, false, false⟩

/-- `DEFAULT_MIN_NOTE_GAP` (3 ms). -/
def DEFAULT_MIN_NOTE_GAP : Nat := 3

/-- `MODIFIER_SETTLE_DELAY` (3 ms). -/
def MODIFIER_SETTLE_DELAY : Nat := 3

/-- Scheduler state (src/engine.rs `NoteScheduler`). -/
structure NoteScheduler where
  current_key : Option Key
  current_modifiers : ModifierState
  last_note_time : Int
  min_note_gap : Nat
deriving DecidableEq, Repr

/-- `NoteScheduler::new()`: idle, default modifiers, last note time one
second in the past relative to the mock clock's origin. -/
def NoteScheduler.new : NoteScheduler :=
  ⟨none, ModifierState.default, -1000, DEFAULT_MIN_NOTE_GAP⟩

/-- `NoteScheduler::release_current`: `current_key.take()` clears the
record before the capability release is attempted. -/
def releaseCurrent (sched : NoteScheduler) (kb : Kb) : NoteScheduler × Kb × Bool :=
  match sched.current_key with
  | some key =>
      let sched' := { sched with current_key := none }
      let (kb', ok) := kb.doRelease key
      (sched', kb', ok)
  | none => (sched, kb, true)

/-- `NoteScheduler::wait_min_gap`: sleep out the remainder of the minimum
note gap if the elapsed time since the last note-on is smaller. -/
def waitMinGap (sched : NoteScheduler) (kb : Kb) : Kb :=
  let elapsed := kb.time - sched.last_note_time
  if elapsed < (sched.min_note_gap : Int) then
    kb.doSleep ((sched.min_note_gap : Int) - elapsed).toNat
  else kb

/-- `NoteScheduler::set_modifiers`: issue a press/release per modifier
only where desired and current differ; commit `current_modifiers` only
after all injections succeeded; settle-sleep iff something changed and a
modifier is active. On failure the unfinished mutations are kept (early
return with `?`). -/
def setModifiers (sched : NoteScheduler) (desired : ModifierState) (kb : Kb) :
    NoteScheduler × Kb × Bool :=
  let cur := sched.current_modifiers
  let (kb1, ok1) :=
    if desired.shift ≠ cur.shift then
      if desired.shift then kb.doPress .Shift else kb.doRelease .Shift
    else (kb, true)
  if ok1 = false then (sched, kb1, false) else
  let (kb2, ok2) :=
    if desired.ctrl ≠ cur.ctrl then
      if desired.ctrl then kb1.doPress .Control else kb1.doRelease .Control
    else (kb1, true)
  if ok2 = false then (sched, kb2, false) else
  let (kb3, ok3) :=
    if desired.alt ≠ cur.alt then
      if desired.alt then kb2.doPress .Alt else kb2.doRelease .Alt
    else (kb2, true)
  if ok3 = false then (sched, kb3, false) else
  let changed := desired.shift ≠ cur.shift ∨ desired.ctrl ≠ cur.ctrl ∨ desired.alt ≠ cur.alt
  let sched' := { sched with current_modifiers := desired }
  let kb4 :=
    if changed ∧ (desired.shift ∨ desired.ctrl ∨ desired.alt) then
      kb3.doSleep MODIFIER_SETTLE_DELAY
    else kb3
  (sched', kb4, true)

/-- One iteration of the `execute_actions_raw` loop body: dispatch a
single action to the capability (or to `set_modifiers` / a sleep). -/
def execAction (sched : NoteScheduler) (a : Action) (kb : Kb) :
    NoteScheduler × Kb × Bool :=
  match a with
  | .Press k => let (kb', ok) := kb.doPress k; (sched, kb', ok)
  | .Release k => let (kb', ok) := kb.doRelease k; (sched, kb', ok)
  | .Delay ms => (sched, kb.doSleep ms, true)
  | .SetModifiers s c al => setModifiers sched ⟨s, c, al⟩ kb

/-- `NoteScheduler::execute_actions_raw`: replay each action in order,
stopping at the first failed injection. -/
def executeActionsRaw (sched : NoteScheduler) (actions : List Action) (kb : Kb) :
    NoteScheduler × Kb × Bool :=
  match actions with
  | [] => (sched, kb, true)
  | a :: rest =>
      let r := execAction sched a kb
      if r.2.2 then executeActionsRaw r.1 rest r.2.1 else (r.1, r.2.1, false)

/-- The pre-scan in `NoteScheduler::play_note`: the last `SetModifiers`
and the last `Press` of the action list. -/
def prescan (actions : List Action) : Option ModifierState × Option Key :=
  actions.foldl
    (fun acc a =>
      match a with
      | .SetModifiers s c al => (some ⟨s, c, al⟩, acc.2)
      | .Press k => (acc.1, some k)
      | _ => acc)
    (none, none)

/-- `NoteScheduler::play_note`: if the sequence contains a `Press`,
release the previous note, enforce the minimum gap, set modifiers, press
the new key and record it; otherwise raw replay. -/
def playNote (sched : NoteScheduler) (actions : List Action) (kb : Kb) :
    NoteScheduler × Kb × Bool :=
  let scan := prescan actions
  match scan.2 with
  | some key =>
      let (sched1, kb1, ok1) := releaseCurrent sched kb
      if ok1 = false then (sched1, kb1, false) else
      let kb2 := waitMinGap sched1 kb1
      let (sched2, kb3, ok2) :=
        match scan.1 with
        | some mods => setModifiers sched1 mods kb2
        | none => (sched1, kb2, true)
      if ok2 = false then (sched2, kb3, false) else
      let (kb4, ok3) := kb3.doPress key
      if ok3 = false then (sched2, kb4, false) else
      ({ sched2 with current_key := some key, last_note_time := kb4.time }, kb4, true)
  | none => executeActionsRaw sched actions kb

/-- `NoteScheduler::handle_note_off`: if the released key is known it is
processed only when it is still the current key; otherwise the release is
skipped as stale. With no known key the actions are replayed verbatim. -/
def handleNoteOff (sched : NoteScheduler) (actions : List Action)
    (released_key : Option Key) (kb : Kb) : NoteScheduler × Kb × Bool :=
  match released_key with
  | some rk =>
      if sched.current_key = some rk then
        let (sched1, kb1, ok) := executeActionsRaw sched actions kb
        if ok then ({ sched1 with current_key := none }, kb1, true)
        else (sched1, kb1, false)
      else (sched, kb, true)
  | none => executeActionsRaw sched actions kb

/-! ## MIDI notes and message parsing (src/midi.rs) -/

/-- MIDI note number wrapper (src/midi.rs `MidiNote(u8)`). -/
structure MidiNote where
  val : Nat
deriving DecidableEq, Repr

/-- The distinct error cases produced by the parser and note validation.
Each constructor corresponds one-to-one to a distinct
`Error::InvalidMidiMessage` format string in src/midi.rs: "Message too
short", "Unsupported message type", "Note number out of range". -/
inductive ParseError where
  | TooShort (len : Nat)
  | UnsupportedMessageType (t : Nat)
  | NoteOutOfRange (note : Nat)
deriving DecidableEq, Repr

/-- `MidiNote::new`: validates the 0-127 range. -/
def MidiNote.new (note : Nat) : Except ParseError MidiNote :=
  if note > 127 then .error (.NoteOutOfRange note) else .ok ⟨note⟩

/-- `MidiNote::value`. -/
def MidiNote.value (n : MidiNote) : Nat := n.val

/-- MIDI event type (src/midi.rs `MidiEventType`). -/
inductive MidiEventType where
  | NoteOn
  | NoteOff
deriving DecidableEq, Repr

/-- Parsed MIDI message (src/midi.rs `MidiMessage`). -/
structure MidiMessage where
  event_type : MidiEventType
  channel : Nat
  note : MidiNote
  velocity : Nat
deriving DecidableEq, Repr

/-- `MidiMessage::parse`: length check, then dispatch on the status
byte's high nibble; `0x90` with velocity 0 is normalized to NoteOff. -/
def MidiMessage.parse (data : List Nat) : Except ParseError MidiMessage :=
  match data with
  | b0 :: b1 :: b2 :: _ =>
      let message_type := b0 &&& 0xF0
      let channel := b0 &&& 0x0F
      if message_type = 0x80 then
        match MidiNote.new b1 with
        | .ok note => .ok ⟨.NoteOff, channel, note, b2⟩
        | .error e => .error e
      else if message_type = 0x90 then
        let velocity := b2
        let event_type := if velocity = 0 then MidiEventType.NoteOff else .NoteOn
        match MidiNote.new b1 with
        | .ok note => .ok ⟨event_type, channel, note, velocity⟩
        | .error e => .error e
      else .error (.UnsupportedMessageType message_type)
  | _ => .error (.TooShort data.length)

/-! ## Mapping model (src/mapping.rs) -/

/-- Mapping from a MIDI note to keyboard actions (src/mapping.rs). -/
structure NoteMapping where
  on_press : List Action
  on_release : List Action
deriving DecidableEq, Repr

/-- MIDI to keyboard mapping configuration (src/mapping.rs). The
`HashMap<u8, NoteMapping>` is modelled as an association list with
unique keys. -/
structure MappingConfig where
  channel : Option Nat
  mappings : List (Nat × NoteMapping)
  octave_transpose : Bool
deriving DecidableEq, Repr

/-- `self.mappings.get(&n)`. -/
def lookupMapping (cfg : MappingConfig) (n : Nat) : Option NoteMapping :=
  cfg.mappings.lookup n

/-- `self.mappings.keys().min()`. -/
def minMapped (cfg : MappingConfig) : Option Nat :=
  (cfg.mappings.map Prod.fst).min?

/-- `self.mappings.keys().max()`. -/
def maxMapped (cfg : MappingConfig) : Option Nat :=
  (cfg.mappings.map Prod.fst).max?

/-- The below-minimum loop of `get_mapping_transposed`:
`while candidate + 12 <= 127 { candidate += 12; if mapped return }`. -/
def shiftUp (cfg : MappingConfig) (candidate : Nat) : Option (MidiNote × NoteMapping) :=
  if candidate + 12 ≤ 127 then
    let c := candidate + 12
    match lookupMapping cfg c with
    | some m => (MidiNote.new c).toOption.map fun n => (n, m)
    | none => shiftUp cfg c
  else none
termination_by 127 - candidate
decreasing_by omega

/-- The above-maximum loop of `get_mapping_transposed`:
`while candidate >= 12 { candidate -= 12; if mapped return }`. -/
def shiftDown (cfg : MappingConfig) (candidate : Nat) : Option (MidiNote × NoteMapping) :=
  if candidate ≥ 12 then
    let c := candidate - 12
    match lookupMapping cfg c with
    | some m => (MidiNote.new c).toOption.map fun n => (n, m)
    | none => shiftDown cfg c
  else none
termination_by candidate
decreasing_by omega

/-- The in-range loop of `get_mapping_transposed`: per iteration, step
one octave down (while `down >= 12`) and test, then one octave up (while
`up + 12 <= 127`) and test, until both directions are exhausted. -/
def middleSearch (cfg : MappingConfig) (down up : Nat) : Option (MidiNote × NoteMapping) :=
  if hd : down ≥ 12 then
    let d := down - 12
    match lookupMapping cfg d with
    | some m => (MidiNote.new d).toOption.map fun n => (n, m)
    | none =>
        if hu : up + 12 ≤ 127 then
          let u := up + 12
          match lookupMapping cfg u with
          | some m => (MidiNote.new u).toOption.map fun n => (n, m)
          | none => middleSearch cfg d u
        else middleSearch cfg d up
  else if hu : up + 12 ≤ 127 then
    let u := up + 12
    match lookupMapping cfg u with
    | some m => (MidiNote.new u).toOption.map fun n => (n, m)
    | none => middleSearch cfg down u
  else none
termination_by down + (127 - up)
decreasing_by
  · omega
  · omega
  · omega

/-- `MappingConfig::get_mapping_transposed` (src/mapping.rs): direct
lookup, then — if octave transposition is enabled and the table is
nonempty — octave shifting toward or within the mapped range. -/
def getMappingTransposed (cfg : MappingConfig) (note : MidiNote) :
    Option (MidiNote × NoteMapping) :=
  match lookupMapping cfg note.val with
  | some m => some (note, m)
  | none =>
      if cfg.octave_transpose = false then none
      else
        match minMapped cfg, maxMapped cfg with
        | some min_mapped, some max_mapped =>
            if note.val < min_mapped then shiftUp cfg note.val
            else if note.val > max_mapped then shiftDown cfg note.val
            else middleSearch cfg note.val note.val
        | _, _ => none

/-! ## Enigo keyboard controller (src/keyboard.rs) -/

/-- Association-list update mirroring `HashMap::insert` on the
`pressed_keys` map. -/
def insertKey : List (Key × Bool) → Key → Bool → List (Key × Bool)
  | [], k, v => [(k, v)]
  | (k', v') :: rest, k, v =>
      if k' = k then (k, v) :: rest else (k', v') :: insertKey rest k v

/-- `EnigoKeyboardController` (src/keyboard.rs): the `pressed_keys`
bookkeeping map plus a mock of the underlying `enigo.key` injection,
recorded as a trace with fault injection. -/
structure EnigoKeyboardController where
  /-- Injection calls actually forwarded to the platform layer. -/
  injections : List KbEvent
  /-- Index of the platform injection call that fails (none = all succeed). -/
  injFailAt : Option Nat
  /-- Number of platform injection calls attempted so far. -/
  injCalls : Nat
  /-- `pressed_keys: HashMap<Key, bool>` as an association list. -/
  pressed_keys : List (Key × Bool)
deriving DecidableEq, Repr

/-- `self.pressed_keys.get(&key).copied().unwrap_or(false)`. -/
def EnigoKeyboardController.isPressed (c : EnigoKeyboardController) (k : Key) : Bool :=
  (c.pressed_keys.lookup k).getD false

/-- `EnigoKeyboardController::press`: no-op success when the key is
already recorded as pressed; otherwise forward the injection and record
the key as pressed. -/
def EnigoKeyboardController.press (c : EnigoKeyboardController) (k : Key) :
    EnigoKeyboardController × Bool :=
  if c.isPressed k then (c, true)
  else if c.injFailAt = some c.injCalls then (c, false)
  else
    ({ c with
        injections := c.injections ++ [.press k]
        injCalls := c.injCalls + 1
        pressed_keys := insertKey c.pressed_keys k true }, true)

/-- `EnigoKeyboardController::release`: no-op success when the key is not
recorded as pressed; otherwise forward the injection and record the key
as released. -/
def EnigoKeyboardController.release (c : EnigoKeyboardController) (k : Key) :
    EnigoKeyboardController × Bool :=
  if c.isPressed k = false then (c, true)
  else if c.injFailAt = some c.injCalls then (c, false)
  else
    ({ c with
        injections := c.injections ++ [.release k]
        injCalls := c.injCalls + 1
        pressed_keys := insertKey c.pressed_keys k false }, true)

/-! ## Spec-side candidate sequences for the transposition search

These two definitions are modelled on the specification's description of
the search order, to be compared with the loops embedded from the
source. -/

/-- The spec's below-minimum candidate sequence: keep adding 12 while the
result stays at most 127. -/
def upCandidates (c : Nat) : List Nat :=
  if c + 12 ≤ 127 then (c + 12) :: upCandidates (c + 12) else []
termination_by 127 - c
decreasing_by omega

/-- The spec's in-range candidate sequence: alternately one octave down
(while the cursor is at least 12) then one octave up (while the cursor
stays at most 115), both cursors starting at the original note,
until both directions are exhausted. -/
def middleCandidates (down up : Nat) : List Nat :=
  if down < 12 ∧ 127 < up + 12 then []
  else
    (if down ≥ 12 then [down - 12] else []) ++
    (if up + 12 ≤ 127 then [up + 12] else []) ++
    middleCandidates (if down ≥ 12 then down - 12 else down)
      (if up + 12 ≤ 127 then up + 12 else up)
termination_by down + (127 - up)
decreasing_by
  simp only [not_and, not_lt] at *
  split <;> split <;> omega

/-- The first candidate of the list that is mapped, resolved to the pair
the search returns. -/
def firstMatch (cfg : MappingConfig) : List Nat → Option (MidiNote × NoteMapping)
  | [] => none
  | c :: rest =>
      match lookupMapping cfg c with
      | some m => some (⟨c⟩, m)
      | none => firstMatch cfg rest

/-- `kb'` extends `kb`: the event trace only grew (nothing already sent
to the capability is ever rolled back). -/
def Kb.Extends (kb kb' : Kb) : Prop := ∃ t, kb'.events = kb.events ++ t

/-! ## Concrete fixtures used by the witnesses -/

/-- A note mapping that presses and releases `Q`. -/
def mapQ48 : NoteMapping := ⟨[Action.Press Key.Q], [Action.Release Key.Q]⟩

/-- A note mapping that presses and releases `W`. -/
def mapW60 : NoteMapping := ⟨[Action.Press Key.W], [Action.Release Key.W]⟩

/-- A note mapping that presses and releases `E`. -/
def mapE72 : NoteMapping := ⟨[Action.Press Key.E], [Action.Release Key.E]⟩

/-- Table with keys 48, 60, 72 and octave transposition enabled. -/
def cfgThreeOctaves : MappingConfig :=
  ⟨some 0, [(48, mapQ48), (60, mapW60), (72, mapE72)], true⟩

/-- Table with the single key 60 and octave transposition enabled. -/
def cfgSingleSixty : MappingConfig := ⟨some 0, [(60, mapW60)], true⟩

/-- Table with keys 48 and 72 and octave transposition enabled; note 60
lies in the mapped span, unmapped, with both 48 and 72 one octave away. -/
def cfgPair : MappingConfig := ⟨some 0, [(48, mapQ48), (72, mapE72)], true⟩

/-- Table with the single key 60 and octave transposition disabled. -/
def cfgOff : MappingConfig := ⟨some 0, [(60, mapW60)], false⟩

/-- A scheduler currently holding `Q`. -/
def schedHoldQ : NoteScheduler :=
  { NoteScheduler.new with current_key := some Key.Q }

/-- A controller that records `Q` as pressed. -/
def enigoPressedQ : EnigoKeyboardController := ⟨[], none, 0, [(Key.Q, true)]⟩

/-- Monophony scenario, step 1: `play_note([Press Q])` from Idle. -/
def c1r1 : NoteScheduler × Kb × Bool :=
  playNote NoteScheduler.new [Action.Press Key.Q] Kb.init

/-- Monophony scenario, step 2: `play_note([Press W])` while `Q` is held. -/
def c1r2 : NoteScheduler × Kb × Bool :=
  playNote c1r1.1 [Action.Press Key.W] c1r1.2.1

/-- Monophony scenario, step 3: the stale `handle_note_off` for `Q`. -/
def c1r3 : NoteScheduler × Kb × Bool :=
  handleNoteOff c1r2.1 [Action.Release Key.Q] (some Key.Q) c1r2.2.1

/-! ## Helper lemmas: the event trace only grows -/

theorem Kb.extends_refl (kb : Kb) : kb.Extends kb := ⟨[], by simp⟩

theorem Kb.Extends.trans {a b c : Kb} (h1 : a.Extends b) (h2 : b.Extends c) :
    a.Extends c := by
  obtain ⟨t1, e1⟩ := h1
  obtain ⟨t2, e2⟩ := h2
  exact ⟨t1 ++ t2, by simp [e2, e1]⟩

theorem Kb.doPress_extends (kb : Kb) (k : Key) : kb.Extends (kb.doPress k).1 := by
  unfold Kb.doPress
  split
  · exact Kb.extends_refl kb
  · exact ⟨[.press k], rfl⟩

theorem Kb.doRelease_extends (kb : Kb) (k : Key) : kb.Extends (kb.doRelease k).1 := by
  unfold Kb.doRelease
  split
  · exact Kb.extends_refl kb
  · exact ⟨[.release k], rfl⟩

theorem Kb.doSleep_extends (kb : Kb) (ms : Nat) : kb.Extends (kb.doSleep ms) :=
  ⟨[.sleep ms], rfl⟩

theorem Kb.modkey_extends (kb : Kb) (b : Bool) (k : Key) :
    kb.Extends (if b then kb.doPress k else kb.doRelease k).1 := by
  cases b
  · exact kb.doRelease_extends k
  · exact kb.doPress_extends k

theorem Kb.ite_sleep_extends (kb : Kb) (p : Prop) [Decidable p] (ms : Nat) :
    kb.Extends (if p then kb.doSleep ms else kb) := by
  split
  · exact kb.doSleep_extends ms
  · exact Kb.extends_refl kb

theorem setModifiers_extends (s : NoteScheduler) (d : ModifierState) (kb : Kb) :
    kb.Extends (setModifiers s d kb).2.1 := by
  unfold setModifiers
  dsimp only
  rcases h1 : (if d.shift ≠ s.current_modifiers.shift then
      (if d.shift then kb.doPress .Shift else kb.doRelease .Shift) else (kb, true)) with ⟨kb1, ok1⟩
  have e1 : kb.Extends kb1 := by
    have hm := Kb.modkey_extends kb d.shift .Shift
    split at h1
    · rw [h1] at hm; exact hm
    · cases h1; exact Kb.extends_refl kb
  dsimp only
  by_cases hok1 : ok1 = false
  · simp only [hok1, if_true]; exact e1
  · simp only [hok1, if_false]
    rcases h2 : (if d.ctrl ≠ s.current_modifiers.ctrl then
        (if d.ctrl then kb1.doPress .Control else kb1.doRelease .Control)
      else (kb1, true)) with ⟨kb2, ok2⟩
    have e2 : kb.Extends kb2 := by
      have hm := Kb.modkey_extends kb1 d.ctrl .Control
      split at h2
      · rw [h2] at hm; exact e1.trans hm
      · cases h2; exact e1
    dsimp only
    by_cases hok2 : ok2 = false
    · simp only [hok2, if_true]; exact e2
    · simp only [hok2, if_false]
      rcases h3 : (if d.alt ≠ s.current_modifiers.alt then
          (if d.alt then kb2.doPress .Alt else kb2.doRelease .Alt)
        else (kb2, true)) with ⟨kb3, ok3⟩
      have e3 : kb.Extends kb3 := by
        have hm := Kb.modkey_extends kb2 d.alt .Alt
        split at h3
        · rw [h3] at hm; exact e2.trans hm
        · cases h3; exact e2
      dsimp only
      by_cases hok3 : ok3 = false
      · simp only [hok3, if_true]; exact e3
      · simp only [hok3, if_false]
        exact e3.trans (Kb.ite_sleep_extends kb3 _ _)

theorem execAction_extends (s : NoteScheduler) (a : Action) (kb : Kb) :
    kb.Extends (execAction s a kb).2.1 := by
  cases a with
  | Press k =>
      unfold execAction
      dsimp only
      exact kb.doPress_extends k
  | Release k =>
      unfold execAction
      dsimp only
      exact kb.doRelease_extends k
  | Delay ms => exact kb.doSleep_extends ms
  | SetModifiers sh c al => exact setModifiers_extends s ⟨sh, c, al⟩ kb

theorem executeActionsRaw_extends (s : NoteScheduler) (actions : List Action) (kb : Kb) :
    kb.Extends (executeActionsRaw s actions kb).2.1 := by
  induction actions generalizing s kb with
  | nil => exact Kb.extends_refl kb
  | cons a rest ih =>
      unfold executeActionsRaw
      dsimp only
      rcases hr : execAction s a kb with ⟨s1, kb1, ok⟩
      have e : kb.Extends kb1 := by
        have hh := execAction_extends s a kb
        rw [hr] at hh
        exact hh
      dsimp only
      cases ok
      · simpa using e
      · simpa using e.trans (ih s1 kb1)

/-! ## Helper lemmas: failure exits of the scheduler -/

theorem setModifiers_fail_keeps_modifiers (s : NoteScheduler) (d : ModifierState) (kb : Kb) :
    (setModifiers s d kb).2.2 = false → (setModifiers s d kb).1 = s := by
  unfold setModifiers
  dsimp only
  rcases h1 : (if d.shift ≠ s.current_modifiers.shift then
      (if d.shift then kb.doPress .Shift else kb.doRelease .Shift) else (kb, true)) with ⟨kb1, ok1⟩
  dsimp only
  by_cases hok1 : ok1 = false
  · simp [hok1]
  · simp only [hok1, if_false]
    rcases h2 : (if d.ctrl ≠ s.current_modifiers.ctrl then
        (if d.ctrl then kb1.doPress .Control else kb1.doRelease .Control)
      else (kb1, true)) with ⟨kb2, ok2⟩
    dsimp only
    by_cases hok2 : ok2 = false
    · simp [hok2]
    · simp only [hok2, if_false]
      rcases h3 : (if d.alt ≠ s.current_modifiers.alt then
          (if d.alt then kb2.doPress .Alt else kb2.doRelease .Alt)
        else (kb2, true)) with ⟨kb3, ok3⟩
      dsimp only
      by_cases hok3 : ok3 = false
      · simp [hok3]
      · simp only [hok3, if_false]
        intro hh
        simp at hh

theorem handleNoteOff_fail_propagates (s : NoteScheduler) (actions : List Action)
    (rk : Key) (kb : Kb) (hcur : s.current_key = some rk)
    (hfail : (executeActionsRaw s actions kb).2.2 = false) :
    handleNoteOff s actions (some rk) kb =
      ((executeActionsRaw s actions kb).1, (executeActionsRaw s actions kb).2.1, false) := by
  unfold handleNoteOff
  rcases hr : executeActionsRaw s actions kb with ⟨s1, kb1, ok⟩
  rw [hr] at hfail
  dsimp only at hfail
  subst hfail
  simp [hcur]

/-! ## Helper lemmas: the transposition loops visit the candidate lists -/

theorem shiftUp_eq_firstMatch (cfg : MappingConfig) :
    ∀ n c, 127 - c ≤ n → shiftUp cfg c = firstMatch cfg (upCandidates c) := by
  intro n
  induction n with
  | zero =>
      intro c hc
      have h : ¬ (c + 12 ≤ 127) := by omega
      rw [shiftUp, upCandidates]
      simp [h, firstMatch]
  | succ n ih =>
      intro c hc
      rw [shiftUp, upCandidates]
      by_cases h : c + 12 ≤ 127
      · simp only [h, if_true]
        cases hm : lookupMapping cfg (c + 12) with
        | some m =>
            simp [firstMatch, hm, MidiNote.new, Except.toOption, show ¬ (c + 12 > 127) by omega]
        | none =>
            simp only [firstMatch, hm]
            exact ih (c + 12) (by omega)
      · simp [h, firstMatch]

theorem middleSearch_eq_firstMatch (cfg : MappingConfig) :
    ∀ n down up, down + (127 - up) ≤ n → down ≤ 127 →
      middleSearch cfg down up = firstMatch cfg (middleCandidates down up) := by
  intro n
  induction n with
  | zero =>
      intro down up hc hle
      have h1 : ¬ (down ≥ 12) := by omega
      have h2 : ¬ (up + 12 ≤ 127) := by omega
      rw [middleSearch, middleCandidates]
      simp [h1, h2, firstMatch, show down < 12 ∧ 127 < up + 12 by omega]
  | succ n ih =>
      intro down up hc hle
      rw [middleSearch, middleCandidates]
      by_cases hd : 12 ≤ down
      · have hg : ¬ (down < 12 ∧ 127 < up + 12) := by omega
        by_cases hu : up + 12 ≤ 127
        · cases hm : lookupMapping cfg (down - 12) with
          | some m =>
              simp [hd, hu, hg, hm, firstMatch, MidiNote.new, Except.toOption,
                show ¬ (down - 12 > 127) by omega]
          | none =>
              cases hm2 : lookupMapping cfg (up + 12) with
              | some m =>
                  simp [hd, hu, hg, hm, hm2, firstMatch, MidiNote.new, Except.toOption,
                    show ¬ (up + 12 > 127) by omega]
              | none =>
                  simp [hd, hu, hg, hm, hm2, firstMatch]
                  exact ih (down - 12) (up + 12) (by omega) (by omega)
        · cases hm : lookupMapping cfg (down - 12) with
          | some m =>
              simp [hd, hu, hg, hm, firstMatch, MidiNote.new, Except.toOption,
                show ¬ (down - 12 > 127) by omega]
          | none =>
              simp [hd, hu, hg, hm, firstMatch]
              exact ih (down - 12) up (by omega) (by omega)
      · by_cases hu : up + 12 ≤ 127
        · have hg : ¬ (down < 12 ∧ 127 < up + 12) := by omega
          cases hm : lookupMapping cfg (up + 12) with
          | some m =>
              simp [hd, hu, hg, hm, firstMatch, MidiNote.new, Except.toOption,
                show ¬ (up + 12 > 127) by omega]
          | none =>
              simp [hd, hu, hg, hm, firstMatch]
              exact ih down (up + 12) (by omega) (by omega)
        · simp [hd, hu, firstMatch, show down < 12 ∧ 127 < up + 12 by omega]

/-! ## Claim theorems -/

/-- C1: Monophony of the scheduler. From Idle, `play_note([Press Q])`
leaves `Q` held; a second `play_note([Press W])` while `Q` is held first
releases `Q` and only then presses `W`; the stale
`handle_note_off([Release Q], released_key = Q)` performs no further
capability call and leaves the state untouched, because the held key is
now `W`. The capability sees exactly press(Q), release(Q), press(W). -/
theorem claim_C1_monophony :
    c1r1.1.current_key = some Key.Q ∧ c1r1.2.2 = true ∧
    capCalls c1r1.2.1 = [KbEvent.press Key.Q] ∧
    c1r2.1.current_key = some Key.W ∧ c1r2.2.2 = true ∧
    capCalls c1r2.2.1 = [KbEvent.press Key.Q, KbEvent.release Key.Q, KbEvent.press Key.W] ∧
    c1r3 = (c1r2.1, c1r2.2.1, true) := by
  decide

/-- C7: Modifier diffing. `set_modifiers` succeeds (no fault scheduled),
issues per modifier exactly one press/release when the desired value
differs from the currently-asserted one and nothing when they agree, and
appends the settle sleep exactly when some modifier changed and some
desired modifier is active. -/
theorem claim_C7_modifier_diff (sched : NoteScheduler) (desired : ModifierState) (kb : Kb)
    (h : kb.failAt = none) :
    (setModifiers sched desired kb).2.2 = true ∧
    (setModifiers sched desired kb).2.1.events = kb.events ++
      ((if desired.shift = sched.current_modifiers.shift then []
        else [if desired.shift then KbEvent.press Key.Shift else KbEvent.release Key.Shift]) ++
       (if desired.ctrl = sched.current_modifiers.ctrl then []
        else [if desired.ctrl then KbEvent.press Key.Control else KbEvent.release Key.Control]) ++
       (if desired.alt = sched.current_modifiers.alt then []
        else [if desired.alt then KbEvent.press Key.Alt else KbEvent.release Key.Alt]) ++
       (if desired ≠ sched.current_modifiers ∧ (desired.shift ∨ desired.ctrl ∨ desired.alt)
        then [KbEvent.sleep MODIFIER_SETTLE_DELAY] else [])) := by
  obtain ⟨ck, ⟨cs, cc, ca⟩, lt, mg⟩ := sched
  obtain ⟨ds, dc, da⟩ := desired
  cases cs <;> cases cc <;> cases ca <;> cases ds <;> cases dc <;> cases da <;>
    simp [setModifiers, Kb.doPress, Kb.doRelease, Kb.doSleep, h]

/-- Witness for C7: asserting shift from a clean state presses Shift and
settles; nothing else is issued. -/
theorem claim_C7_witness :
    (setModifiers NoteScheduler.new ⟨true, false, false⟩ Kb.init).2.2 = true ∧
    (setModifiers NoteScheduler.new ⟨true, false, false⟩ Kb.init).2.1.events =
      [KbEvent.press Key.Shift, KbEvent.sleep MODIFIER_SETTLE_DELAY] := by
  have h := claim_C7_modifier_diff NoteScheduler.new ⟨true, false, false⟩ Kb.init rfl
  exact ⟨h.1, by simpa using h.2⟩

/-- C9: Keyboard capability idempotence. Pressing a key the controller
already records as pressed, or releasing one it does not record as
pressed, performs no injection, leaves the controller unchanged and
returns success. -/
theorem claim_C9_idempotent (c : EnigoKeyboardController) (k : Key) :
    (c.isPressed k = true → c.press k = (c, true)) ∧
    (c.isPressed k = false → c.release k = (c, true)) := by
  constructor
  · intro h
    simp [EnigoKeyboardController.press, h]
  · intro h
    simp [EnigoKeyboardController.release, h]

/-- Witness for C9: with `Q` recorded as pressed, pressing `Q` again and
releasing the untouched `W` are both no-op successes. -/
theorem claim_C9_witness :
    enigoPressedQ.press Key.Q = (enigoPressedQ, true) ∧
    enigoPressedQ.release Key.W = (enigoPressedQ, true) :=
  ⟨(claim_C9_idempotent enigoPressedQ Key.Q).1 (by decide),
   (claim_C9_idempotent enigoPressedQ Key.W).2 (by decide)⟩

/-- C10: A `handle_note_off` with a known released key arriving while the
scheduler is Idle performs no capability call at all and leaves both the
scheduler state and the capability unchanged. -/
theorem claim_C10_idle_note_off (sched : NoteScheduler) (actions : List Action)
    (k : Key) (kb : Kb) (h : sched.current_key = none) :
    handleNoteOff sched actions (some k) kb = (sched, kb, true) := by
  simp [handleNoteOff, h]

/-- Witness for C10: a note-off for `Q` on a fresh (idle) scheduler is a
no-op success. -/
theorem claim_C10_witness :
    handleNoteOff NoteScheduler.new [Action.Release Key.Q] (some Key.Q) Kb.init =
      (NoteScheduler.new, Kb.init, true) :=
  claim_C10_idle_note_off NoteScheduler.new [Action.Release Key.Q] Key.Q Kb.init rfl

/-- C2: In-range transposition search. With transposition enabled and a
note unmapped but within `[min_mapped, max_mapped]`, the lookup returns
the first mapped candidate of the strict down-then-up interleaved octave
sequence described by the spec (`middleCandidates`); in particular when
`note - 12` is mapped its mapping is returned — so it wins over
`note + 12`. -/
theorem claim_C2_in_range_search (cfg : MappingConfig) (note : MidiNote) (mn mx : Nat)
    (ht : cfg.octave_transpose = true)
    (hdirect : lookupMapping cfg note.val = none)
    (hmin : minMapped cfg = some mn) (hmax : maxMapped cfg = some mx)
    (h1 : mn ≤ note.val) (h2 : note.val ≤ mx) (h127 : note.val ≤ 127) :
    getMappingTransposed cfg note = firstMatch cfg (middleCandidates note.val note.val) ∧
    (∀ m, 12 ≤ note.val → lookupMapping cfg (note.val - 12) = some m →
      getMappingTransposed cfg note = some (⟨note.val - 12⟩, m)) := by
  have hbranch : getMappingTransposed cfg note = middleSearch cfg note.val note.val := by
    simp [getMappingTransposed, hdirect, ht, hmin, hmax,
      show ¬ note.val < mn by omega, show ¬ note.val > mx by omega]
  have hfm : getMappingTransposed cfg note =
      firstMatch cfg (middleCandidates note.val note.val) := by
    rw [hbranch]
    exact middleSearch_eq_firstMatch cfg (note.val + 127) note.val note.val (by omega) h127
  refine ⟨hfm, ?_⟩
  intro m h12 hm
  rw [hfm, middleCandidates]
  have hg : ¬ (note.val < 12 ∧ 127 < note.val + 12) := by omega
  simp [hg, h12, firstMatch, hm]

/-- Witness for C2: table {48, 72}, note 60 unmapped in the span, both
one octave away; the downward candidate 48 wins. -/
theorem claim_C2_witness :
    getMappingTransposed cfgPair ⟨60⟩ = some (⟨48⟩, mapQ48) :=
  (claim_C2_in_range_search cfgPair ⟨60⟩ 48 72 rfl rfl rfl rfl (by norm_num)
    (by norm_num) (by norm_num)).2 mapQ48 (by norm_num) rfl

/-- C3: Below-minimum transposition search. With transposition enabled
and a note strictly below the smallest mapped key, the lookup returns
the first mapped candidate of the ascending octave sequence
`note + 12, note + 24, ...` capped at 127 (`upCandidates`), or nothing
when no candidate is mapped. -/
theorem claim_C3_below_min_search (cfg : MappingConfig) (note : MidiNote) (mn mx : Nat)
    (ht : cfg.octave_transpose = true)
    (hdirect : lookupMapping cfg note.val = none)
    (hmin : minMapped cfg = some mn) (hmax : maxMapped cfg = some mx)
    (hlt : note.val < mn) :
    getMappingTransposed cfg note = firstMatch cfg (upCandidates note.val) := by
  have hbranch : getMappingTransposed cfg note = shiftUp cfg note.val := by
    simp [getMappingTransposed, hdirect, ht, hmin, hmax, hlt]
  rw [hbranch]
  exact shiftUp_eq_firstMatch cfg 127 note.val (by omega)

/-- Witness for C3: table {48, 60, 72} resolves note 36 to the mapping at
48; the single-key table {60} yields nothing for note 54 (candidates 66,
78, ..., 126 never match). -/
theorem claim_C3_witness :
    getMappingTransposed cfgThreeOctaves ⟨36⟩ = some (⟨48⟩, mapQ48) ∧
    getMappingTransposed cfgSingleSixty ⟨54⟩ = none := by
  constructor
  · exact (claim_C3_below_min_search cfgThreeOctaves ⟨36⟩ 48 72 rfl rfl rfl rfl
      (by norm_num)).trans
      (by simp [upCandidates, firstMatch, lookupMapping, cfgThreeOctaves, List.lookup])
  · exact (claim_C3_below_min_search cfgSingleSixty ⟨54⟩ 60 60 rfl rfl rfl rfl
      (by norm_num)).trans
      (by simp [upCandidates, firstMatch, lookupMapping, cfgSingleSixty, List.lookup])

/-- C4: With octave transposition disabled, an unmapped note resolves to
nothing whatever the table contains, and a mapped note resolves to its
own entry with the note itself as the resolved note. -/
theorem claim_C4_no_transpose (cfg : MappingConfig) (note : MidiNote)
    (hoff : cfg.octave_transpose = false) :
    (lookupMapping cfg note.val = none → getMappingTransposed cfg note = none) ∧
    (∀ m, lookupMapping cfg note.val = some m →
      getMappingTransposed cfg note = some (note, m)) := by
  constructor
  · intro h
    simp [getMappingTransposed, h, hoff]
  · intro m h
    simp [getMappingTransposed, h]

/-- Witness for C4: with transposition off, unmapped note 61 yields
nothing while mapped note 60 yields its own entry. -/
theorem claim_C4_witness :
    getMappingTransposed cfgOff ⟨61⟩ = none ∧
    getMappingTransposed cfgOff ⟨60⟩ = some (⟨60⟩, mapW60) :=
  ⟨(claim_C4_no_transpose cfgOff ⟨61⟩ rfl).1 rfl,
   (claim_C4_no_transpose cfgOff ⟨60⟩ rfl).2 mapW60 rfl⟩

/-- Counterexample to C5 as stated: the input [0x90, 200, 64] has status
high nibble 0x9 and velocity 64 > 0, yet `parse` does not return a
NoteOn message: the note byte 200 fails validation. -/
theorem claim_C5_counterexample :
    MidiMessage.parse [0x90, 200, 64] =
      Except.error (ParseError.NoteOutOfRange 200) := by
  rfl

/-- C5 (amended: the note byte must also be at most 127): a 3-byte-or-
longer input with status high nibble 0x9 parses to NoteOn with the
status low nibble as channel and the second and third bytes as note and
velocity when the velocity is positive, to NoteOff with the same fields
when the velocity byte is 0; status high nibble 0x8 parses to NoteOff
with the given note and velocity. -/
theorem claim_C5_parse_events (b0 b1 b2 : Nat) (rest : List Nat)
    (hb0 : b0 < 256) (hb1 : b1 ≤ 127) (hb2 : b2 < 256) :
    (b0 &&& 0xF0 = 0x90 → 0 < b2 →
      MidiMessage.parse (b0 :: b1 :: b2 :: rest) =
        .ok ⟨.NoteOn, b0 &&& 0x0F, ⟨b1⟩, b2⟩) ∧
    (b0 &&& 0xF0 = 0x90 → b2 = 0 →
      MidiMessage.parse (b0 :: b1 :: b2 :: rest) =
        .ok ⟨.NoteOff, b0 &&& 0x0F, ⟨b1⟩, b2⟩) ∧
    (b0 &&& 0xF0 = 0x80 →
      MidiMessage.parse (b0 :: b1 :: b2 :: rest) =
        .ok ⟨.NoteOff, b0 &&& 0x0F, ⟨b1⟩, b2⟩) := by
  refine ⟨?_, ?_, ?_⟩
  · intro h9 hv
    simp [MidiMessage.parse, h9, MidiNote.new, show ¬ (b1 > 127) by omega,
      show ¬ (b2 = 0) by omega]
  · intro h9 hv
    simp [MidiMessage.parse, h9, hv, MidiNote.new, show ¬ (b1 > 127) by omega]
  · intro h8
    simp [MidiMessage.parse, h8, MidiNote.new, show ¬ (b1 > 127) by omega]

/-- Witness for C5: 0x90/60/64 is NoteOn, 0x90/60/0 normalizes to
NoteOff, 0x81/60/40 is NoteOff on channel 1. -/
theorem claim_C5_witness :
    MidiMessage.parse [0x90, 60, 64] =
      .ok ⟨.NoteOn, 0, ⟨60⟩, 64⟩ ∧
    MidiMessage.parse [0x90, 60, 0] =
      .ok ⟨.NoteOff, 0, ⟨60⟩, 0⟩ ∧
    MidiMessage.parse [0x81, 60, 40] =
      .ok ⟨.NoteOff, 1, ⟨60⟩, 40⟩ :=
  ⟨(claim_C5_parse_events 0x90 60 64 [] (by norm_num) (by norm_num) (by norm_num)).1
      rfl (by norm_num),
   (claim_C5_parse_events 0x90 60 0 [] (by norm_num) (by norm_num) (by norm_num)).2.1
      rfl rfl,
   (claim_C5_parse_events 0x81 60 40 [] (by norm_num) (by norm_num) (by norm_num)).2.2
      rfl⟩

/-- C6: Failure partition of `parse`. Inputs shorter than 3 bytes fail
as too short with the supplied length; otherwise a status high nibble
other than 0x8/0x9 fails as unsupported; otherwise a note byte over 127
fails range validation; and every remaining input (status nibble 0x8 or
0x9, note in range) parses successfully. -/
theorem claim_C6_parse_failures (data : List Nat) :
    (data.length < 3 → MidiMessage.parse data = .error (.TooShort data.length)) ∧
    (∀ b0 b1 b2 rest, data = b0 :: b1 :: b2 :: rest →
      (b0 &&& 0xF0 ≠ 0x80 → b0 &&& 0xF0 ≠ 0x90 →
        MidiMessage.parse data = .error (.UnsupportedMessageType (b0 &&& 0xF0))) ∧
      ((b0 &&& 0xF0 = 0x80 ∨ b0 &&& 0xF0 = 0x90) → 127 < b1 →
        MidiMessage.parse data = .error (.NoteOutOfRange b1)) ∧
      ((b0 &&& 0xF0 = 0x80 ∨ b0 &&& 0xF0 = 0x90) → b1 ≤ 127 →
        ∃ m, MidiMessage.parse data = .ok m)) := by
  constructor
  · intro hlen
    match data, hlen with
    | [], _ => rfl
    | [_], _ => rfl
    | [_, _], _ => rfl
  · rintro b0 b1 b2 rest rfl
    refine ⟨?_, ?_, ?_⟩
    · intro h8 h9
      simp [MidiMessage.parse, h8, h9]
    · rintro (h | h) hb1 <;>
        simp [MidiMessage.parse, h, MidiNote.new, hb1]
    · rintro (h | h) hb1
      · exact ⟨⟨.NoteOff, b0 &&& 0x0F, ⟨b1⟩, b2⟩,
          by simp [MidiMessage.parse, h, MidiNote.new, show ¬ (b1 > 127) by omega]⟩
      · exact ⟨⟨if b2 = 0 then .NoteOff else .NoteOn, b0 &&& 0x0F, ⟨b1⟩, b2⟩,
          by simp [MidiMessage.parse, h, MidiNote.new, show ¬ (b1 > 127) by omega]⟩

/-- Witness for C6: a 1-byte message is too short; status 0x70 is
unsupported; note byte 200 is out of range; 0x90/60/64 succeeds. -/
theorem claim_C6_witness :
    MidiMessage.parse [0x90] = .error (.TooShort 1) ∧
    MidiMessage.parse [0x70, 60, 0] = .error (.UnsupportedMessageType 0x70) ∧
    MidiMessage.parse [0x80, 200, 0] = .error (.NoteOutOfRange 200) ∧
    ∃ m, MidiMessage.parse [0x90, 60, 64] = .ok m :=
  ⟨(claim_C6_parse_failures [0x90]).1 (by norm_num),
   ((claim_C6_parse_failures [0x70, 60, 0]).2 0x70 60 0 [] rfl).1
      (by decide) (by decide),
   ((claim_C6_parse_failures [0x80, 200, 0]).2 0x80 200 0 [] rfl).2.1
      (Or.inl rfl) (by norm_num),
   ((claim_C6_parse_failures [0x90, 60, 64]).2 0x90 60 64 [] rfl).2.2
      (Or.inr rfl) (by norm_num)⟩

/-- Counterexample to C8 as stated: from a clean scheduler,
`set_modifiers({shift, ctrl})` on a capability whose second injection
fails presses Shift on the capability and then errors out — yet the
scheduler's recorded ModifierState still has `shift = false`, so the
records do not reflect what was actually asserted up to the failing
call. -/
theorem claim_C8_counterexample :
    (setModifiers NoteScheduler.new ⟨true, true, false⟩ (Kb.initFailAt 1)).2.2 = false ∧
    (setModifiers NoteScheduler.new ⟨true, true, false⟩ (Kb.initFailAt 1)).2.1.events =
      [KbEvent.press Key.Shift] ∧
    (setModifiers NoteScheduler.new ⟨true, true, false⟩ (Kb.initFailAt 1)).1.current_modifiers.shift
      = false := by
  decide

/-- C8 (amended): an injection failure during replay is returned to the
caller (`handle_note_off` propagates the failing status of the raw
replay), the Scheduler does not retry, and the capability trace is never
rolled back; however the Scheduler's own records are not transactional —
a failing `set_modifiers` leaves the whole scheduler record, in
particular its ModifierState, at the pre-call value even when some
modifier injections were already applied. -/
theorem claim_C8_failure_semantics (sched : NoteScheduler) (actions : List Action)
    (desired : ModifierState) (rk : Key) (kb : Kb) :
    kb.Extends (executeActionsRaw sched actions kb).2.1 ∧
    ((setModifiers sched desired kb).2.2 = false →
      (setModifiers sched desired kb).1 = sched) ∧
    (sched.current_key = some rk →
      (executeActionsRaw sched actions kb).2.2 = false →
      handleNoteOff sched actions (some rk) kb =
        ((executeActionsRaw sched actions kb).1,
         (executeActionsRaw sched actions kb).2.1, false)) :=
  ⟨executeActionsRaw_extends sched actions kb,
   setModifiers_fail_keeps_modifiers sched desired kb,
   fun hc hf => handleNoteOff_fail_propagates sched actions rk kb hc hf⟩

/-- Witness for C8: with `Q` held and every injection failing, the
failing `set_modifiers` keeps the scheduler record intact and the
failing note-off replay propagates the error. -/
theorem claim_C8_witness :
    (setModifiers schedHoldQ ⟨true, true, false⟩ (Kb.initFailAt 0)).1 = schedHoldQ ∧
    handleNoteOff schedHoldQ [Action.Release Key.Q] (some Key.Q) (Kb.initFailAt 0) =
      ((executeActionsRaw schedHoldQ [Action.Release Key.Q] (Kb.initFailAt 0)).1,
       (executeActionsRaw schedHoldQ [Action.Release Key.Q] (Kb.initFailAt 0)).2.1,
       false) :=
  ⟨(claim_C8_failure_semantics schedHoldQ [] ⟨true, true, false⟩ Key.Q
      (Kb.initFailAt 0)).2.1 (by decide),
   (claim_C8_failure_semantics schedHoldQ [Action.Release Key.Q] ⟨true, true, false⟩
      Key.Q (Kb.initFailAt 0)).2.2 rfl (by decide)⟩

end XivMidi
